import Mathlib

/-
Verification development for the RAG chatbot backend.

The first part embeds `backend/ai_generator.py` (class `AIGenerator`):
the bounded multi-round tool-orchestration loop `generate_response`
together with its helpers `_make_api_call`, `_get_final_response`,
`_handle_tool_execution_round` and `_should_continue_to_next_round`.

The model client (`self.client.chat.completions.create`) is embedded as an
oracle `Nat → Response` consumed by call index, exactly like the mocked
client with a `side_effect` list in the repository's tests.  Every request
the orchestrator issues is recorded in an event trace, so that theorems can
speak about which calls were made, with which message history, whether the
tools parameter was attached, and which tool calls were executed in which
round.

Python `None`-able strings become `Option String`; Python truthiness of a
string value (`if final_response`, `if conversation_history`) is `pyTruthy`.
`json.loads` plus `tool_manager.execute_tool` — both inside the same
`try/except` — become `Except`-valued fields of `ToolManager`.
-/

namespace RagChatbot

/-- Embedding of one entry of `message.tool_calls`: an OpenAI tool call with
its id, function name and the raw (JSON text) argument payload. -/
structure ToolCall where
  id : String
  name : String
  arguments : String
  deriving DecidableEq, Repr

/-- Embedding of `response.choices[0].message`: the assistant message, with a
possibly absent `content` and a list of requested tool calls (`None` becomes
the empty list). -/
structure ModelMessage where
  content : Option String
  tool_calls : List ToolCall
  deriving DecidableEq, Repr

/-- Embedding of `response.choices[0]` of a chat-completions response: the
`finish_reason` string and the message. -/
structure Response where
  finish_reason : String
  message : ModelMessage
  deriving DecidableEq, Repr

/-- Embedding of the entries of the `messages` list sent to the API: the
system/user dicts built by the code, appended assistant messages, and the
role-`tool` result dicts carrying a `tool_call_id` and a content string. -/
inductive ChatMessage where
  | system (content : String)
  | user (content : String)
  | assistant (message : ModelMessage)
  | tool (tool_call_id : String) (content : String)
  deriving DecidableEq, Repr

/-- Embedding of the Anthropic-format tool dicts passed to
`generate_response` (name, description, input schema). -/
structure ToolSpec where
  name : String
  description : String
  input_schema : String
  deriving DecidableEq, Repr

/-- Embedding of the inner `function` dict of an OpenAI-format tool. -/
structure OpenAIFunction where
  name : String
  description : String
  parameters : String
  deriving DecidableEq, Repr

/-- Embedding of an OpenAI-format tool dict as built by
`_convert_tools_to_openai_format`. -/
structure OpenAITool where
  type : String
  function : OpenAIFunction
  deriving DecidableEq, Repr

/-- Embedding of `AIGenerator._convert_tools_to_openai_format`. -/
def convert_tools_to_openai_format (anthropic_tools : List ToolSpec) : List OpenAITool :=
  anthropic_tools.map fun tool =>
    { type := "function"
      function :=
        { name := tool.name
          description := tool.description
          parameters := tool.input_schema } }

/-- Embedding of the tool manager visible through
`tool_manager.execute_tool(name, **json.loads(arguments))`.  `parseArgs` is
`json.loads` on the raw argument payload (`Except.error` when the payload is
malformed, mirroring `json.JSONDecodeError`), and `executeTool` is the
manager's `execute_tool` (`Except.error` when that call raises). -/
structure ToolManager where
  parseArgs : String → Except String (List (String × String))
  executeTool : String → List (String × String) → Except String String

/-- Python truthiness of an optional string: `None` and the empty string are
falsy, every other string is truthy. -/
def pyTruthy : Option String → Bool
  | none => false
  | some s => !(s == "")

/-- Request data recorded for one `client.chat.completions.create` call: the
message list sent, and the value of the `tools` parameter (`none` when no
`tools` key was put into the request at all). -/
structure ApiRequest where
  messages : List ChatMessage
  tools : Option (List OpenAITool)
  deriving DecidableEq, Repr

/-- Trace events of one `generate_response` run: the per-round model call
issued by `_make_api_call`, each tool execution (with its 1-based round
number and resulting content string), the continuation-check call of
`_should_continue_to_next_round`, and the final-synthesis call of
`_get_final_response`. -/
inductive Event where
  | roundCall (req : ApiRequest) (resp : Response)
  | toolExec (round : Nat) (tc : ToolCall) (result : String)
  | continuationCall (req : ApiRequest) (resp : Response)
  | synthesisCall (req : ApiRequest) (resp : Response)
  deriving DecidableEq, Repr

/-- Mutable state threaded through the orchestration loop: the `messages`
list and the index of the next client call (the position in the response
stream, as with a mock `side_effect` list). -/
structure GenState where
  messages : List ChatMessage
  callIdx : Nat
  deriving DecidableEq, Repr

/-- Environment of one `generate_response` invocation: the model client as a
response oracle indexed by call order, and the `tools`, `tool_manager` and
`max_rounds` arguments. -/
structure GenEnv where
  client : Nat → Response
  tools : Option (List ToolSpec)
  toolManager : Option ToolManager
  maxRounds : Nat

/-- Value of the `tools` request parameter chosen by `_make_api_call`: the
converted tool list when the `tools` argument is truthy (a non-empty list),
otherwise no `tools` key in the request. -/
def toolsParamOf (tools : Option (List ToolSpec)) : Option (List OpenAITool) :=
  match tools with
  | some ts => if ts.isEmpty then none else some (convert_tools_to_openai_format ts)
  | none => none

/-- Embedding of `AIGenerator._make_api_call`: one client call with the
current messages, attaching the converted tools exactly when the `tools`
argument is truthy.  Returns the response, the successor state and the
recorded `roundCall` event. -/
def make_api_call (env : GenEnv) (s : GenState) : Response × GenState × List Event :=
  let resp := env.client s.callIdx
  (resp, { messages := s.messages, callIdx := s.callIdx + 1 },
    [Event.roundCall { messages := s.messages, tools := toolsParamOf env.tools } resp])

/-- Embedding of the `try`-guarded body of the tool loop in
`_handle_tool_execution_round`: `json.loads` the payload and run the tool;
any failure of either step becomes the string
`"Tool execution failed: <cause>"` instead of propagating. -/
def runToolCall (tm : ToolManager) (tc : ToolCall) : String :=
  match tm.parseArgs tc.arguments with
  | Except.error e => "Tool execution failed: " ++ e
  | Except.ok args =>
    match tm.executeTool tc.name args with
    | Except.error e => "Tool execution failed: " ++ e
    | Except.ok result => result

/-- Embedding of the `for tool_call in tool_calls:` loop of
`_handle_tool_execution_round`: execute the requested calls in order, and
append one role-`tool` result message per call. -/
def execToolCalls (tm : ToolManager) (round : Nat) :
    List ToolCall → GenState → GenState × List Event
  | [], s => (s, [])
  | tc :: rest, s =>
    let result := runToolCall tm tc
    let s1 : GenState :=
      { messages := s.messages ++ [ChatMessage.tool tc.id result], callIdx := s.callIdx }
    let out := execToolCalls tm round rest s1
    (out.1, Event.toolExec round tc result :: out.2)

/-- Text of the continuation-decision user prompt appended by
`_should_continue_to_next_round`. -/
def continuationDecisionPrompt : String :=
  "Based on the information you\x27ve gathered, do you have sufficient information to provide a complete answer, or do you need to use additional tools? If you need more information, use the appropriate tools. If you have sufficient information, provide your final comprehensive response."

/-- Text of the final-synthesis user prompt appended by
`_get_final_response`. -/
def finalSynthesisPrompt : String :=
  "Based on all the information gathered, please provide your final comprehensive answer."

/-- Embedding of `AIGenerator._should_continue_to_next_round`: build the
decision messages (without mutating `messages`), call the client with base
parameters only — no `tools` key in the request — and either continue (the
decision message with its tool request is appended to `messages`) or stop
with the decision's content as the final response. -/
def should_continue_to_next_round (env : GenEnv) (s : GenState) :
    (Bool × Option String) × GenState × List Event :=
  let decisionMessages := s.messages ++ [ChatMessage.user continuationDecisionPrompt]
  let resp := env.client s.callIdx
  let ev := Event.continuationCall { messages := decisionMessages, tools := none } resp
  if resp.finish_reason = "tool_calls" then
    ((true, none),
      { messages := s.messages ++ [ChatMessage.assistant resp.message], callIdx := s.callIdx + 1 },
      [ev])
  else
    ((false, resp.message.content),
      { messages := s.messages, callIdx := s.callIdx + 1 }, [ev])

/-- Embedding of `AIGenerator._get_final_response`: append the continuation
prompt (without mutating `messages`), call the client without tools, and
return the response content. -/
def get_final_response (env : GenEnv) (s : GenState) :
    Option String × GenState × List Event :=
  let continuationMessages := s.messages ++ [ChatMessage.user finalSynthesisPrompt]
  let resp := env.client s.callIdx
  (resp.message.content,
    { messages := s.messages, callIdx := s.callIdx + 1 },
    [Event.synthesisCall { messages := continuationMessages, tools := none } resp])

/-- Embedding of `AIGenerator._handle_tool_execution_round`: append the
assistant tool-use message, execute every requested tool call in order, then
either stop without a response when `current_round >= max_rounds`, or ask
the continuation question. -/
def handle_tool_execution_round (env : GenEnv) (tm : ToolManager) (resp : Response)
    (current_round : Nat) (s : GenState) : (Bool × Option String) × GenState × List Event :=
  let s1 : GenState :=
    { messages := s.messages ++ [ChatMessage.assistant resp.message], callIdx := s.callIdx }
  let execOut := execToolCalls tm current_round resp.message.tool_calls s1
  if env.maxRounds ≤ current_round then
    ((false, none), execOut.1, execOut.2)
  else
    let contOut := should_continue_to_next_round env execOut.1
    (contOut.1, contOut.2.1, execOut.2 ++ contOut.2.2)

/-- Embedding of the `for round_num in range(max_rounds):` loop of
`AIGenerator.generate_response`, with `fuel` the number of remaining
iterations (`fuel = max_rounds - round_num`); the base case is the fallback
`return self._get_final_response(messages)` after the loop. -/
def genLoop (env : GenEnv) : Nat → Nat → GenState → Option String × GenState × List Event
  | 0, _, s => get_final_response env s
  | fuel + 1, round_num, s =>
    let callOut := make_api_call env s
    let resp := callOut.1
    let s1 := callOut.2.1
    let evs1 := callOut.2.2
    match env.toolManager with
    | some tm =>
      if resp.finish_reason = "tool_calls" then
        let roundOut := handle_tool_execution_round env tm resp (round_num + 1) s1
        let should_continue := roundOut.1.1
        let final_response := roundOut.1.2
        let s2 := roundOut.2.1
        let evs2 := roundOut.2.2
        if should_continue = false then
          if pyTruthy final_response then (final_response, s2, evs1 ++ evs2)
          else
            let finOut := get_final_response env s2
            (finOut.1, finOut.2.1, evs1 ++ evs2 ++ finOut.2.2)
        else if env.maxRounds ≤ round_num + 1 then
          let finOut := get_final_response env s2
          (finOut.1, finOut.2.1, evs1 ++ evs2 ++ finOut.2.2)
        else
          let recOut := genLoop env fuel (round_num + 1) s2
          (recOut.1, recOut.2.1, evs1 ++ evs2 ++ recOut.2.2)
      else (resp.message.content, s1, evs1)
    | none => (resp.message.content, s1, evs1)

/-- Static system prompt `AIGenerator.SYSTEM_PROMPT`, the full constant
from the source. -/
def SYSTEM_PROMPT : String :=
  " You are an AI assistant specialized in course materials and educational content with access to comprehensive search and outline tools for course information.\n\nTool Usage Guidelines:\n- Use **search_course_content** for questions about specific course content, lessons, or detailed educational materials\n- Use **get_course_outline** for questions about course structure, lesson lists, course links, or when users ask for an \"outline\" or \"overview\" of a course\n- **Sequential tool usage allowed**: Up to 2 rounds of tool calls to gather comprehensive information\n- **Round 1**: Use initial tools to gather primary information\n- **Round 2**: If needed, use additional tools to clarify, expand, or gather complementary information\n- Synthesize tool results into accurate, fact-based responses\n- If tool yields no results, state this clearly without offering alternatives\n\nSequential Decision Making:\n- After each round, assess if you have sufficient information to provide a complete answer\n- If information is incomplete or you need clarification, proceed to the next round\n- Use the second round strategically for follow-up searches or outline requests\n- Provide final comprehensive response after gathering sufficient information\n\nResponse Protocol:\n- **General knowledge questions**: Answer using existing knowledge without tools\n- **Course-specific questions**: Use appropriate tools first, then answer\n- **Complex queries**: May require multiple tool calls across rounds for comprehensive coverage\n- **Course outline questions**: Use get_course_outline tool to provide course title, course link, and complete lesson list\n- **No meta-commentary**:\n - Provide direct answers only — no reasoning process, tool explanations, or question-type analysis\n - Do not mention \"based on the search results\" or \"using the tool\"\n\n\nAll responses must be:\n1. **Brief, Concise and focused** - Get to the point quickly\n2. **Educational** - Maintain instructional value\n3. **Clear** - Use accessible language\n4. **Example-supported** - Include relevant examples when they aid understanding\nProvide only the direct answer to what was asked.\n"

/-- Embedding of the system-content construction in `generate_response`:
append the previous-conversation block exactly when `conversation_history`
is truthy. -/
def systemContentOf (conversation_history : Option String) : String :=
  if pyTruthy conversation_history then
    SYSTEM_PROMPT ++ "\n\nPrevious conversation:\n" ++ conversation_history.getD ""
  else SYSTEM_PROMPT

/-- Embedding of `AIGenerator.generate_response`: build the initial system
and user messages and run the sequential round loop.  Returns the answer
(the returned string, `none` when the returned message content was `None`),
the final state, and the recorded event trace. -/
def generate_response (env : GenEnv) (query : String)
    (conversation_history : Option String) : Option String × GenState × List Event :=
  let messages : List ChatMessage :=
    [ChatMessage.system (systemContentOf conversation_history), ChatMessage.user query]
  genLoop env env.maxRounds 0 { messages := messages, callIdx := 0 }

/-
Retrieval engine model.  The repository ships `vector_store.py`,
`search_tools.py` and `models.py` only through their tests and callers; the
modules themselves are not under `src/`.  The definitions below are
therefore modelled from the spec (sections 3, 4.2 - 4.5), with shapes
matching what `tests/test_vector_store.py` and `tests/test_search_tools.py`
exercise.
-/

/-- Modelled from the spec: a `RetrievalFilter` (spec section 4.2 and the
filter table of section 8) — a predicate tree over the two optional fields,
an equality predicate on the course title, an equality predicate on the
lesson number, or their conjunction (the ChromaDB dict shapes
`course_title: c`, `lesson_number: n`, and `$and` of the two).
`vector_store.py` is not under `src/`. -/
inductive RetrievalFilter where
  | courseTitle (title : String)
  | lessonNumber (n : Int)
  | and (first second : RetrievalFilter)
  deriving DecidableEq, Repr

/-- Modelled from the spec: `VectorStore._build_filter` (spec section 4.2:
neither present → empty filter; only course title → equality on it; only
lesson number → equality on it; both → conjunction).  `vector_store.py` is
not under `src/`. -/
def build_filter (course_title : Option String) (lesson_number : Option Int) :
    Option RetrievalFilter :=
  match course_title, lesson_number with
  | none, none => none
  | some t, none => some (RetrievalFilter.courseTitle t)
  | none, some n => some (RetrievalFilter.lessonNumber n)
  | some t, some n =>
    some (RetrievalFilter.and (RetrievalFilter.courseTitle t) (RetrievalFilter.lessonNumber n))

/-- Modelled from the spec: the metadata of one retrieved chunk, with the
course title and an optional lesson number (spec sections 3 and 4.5).
`models.py` is not under `src/`. -/
structure ChunkMeta where
  course_title : String
  lesson_number : Option Int
  deriving DecidableEq, Repr

/-- Modelled from the spec: a `SearchResultSet` (spec section 3) — parallel
lists of documents, metadata and distances, ranked best match first, plus an
optional error string; empty iff the document list is empty.
`vector_store.py` is not under `src/`. -/
structure SearchResults where
  documents : List String
  metadata : List ChunkMeta
  distances : List Rat
  error : Option String
  deriving DecidableEq, Repr

/-- Modelled from the spec: `SearchResults.empty(error_msg)` — an empty
result set carrying an error string. -/
def SearchResults.emptyWithError (msg : String) : SearchResults :=
  { documents := [], metadata := [], distances := [], error := some msg }

/-- Modelled from the spec: the vector store's two indexes, abstracted at
the interface boundary of spec section 6 — the catalog's single
nearest-neighbor lookup (`none` when the catalog has no entries or returns
none), and the content-index query under an optional filter (whose own
failures are already folded into the returned result set's error field).
`vector_store.py` is not under `src/`. -/
structure VectorStoreModel where
  resolveNearest : String → Option String
  contentQuery : String → Option RetrievalFilter → SearchResults

/-- Modelled from the spec: `VectorStore.search` (spec section 4.4) — if a
course name is given, resolve it first and on failure return an empty result
set with the resolver's message without querying content; otherwise query
the content index under the built filter.  `vector_store.py` is not under
`src/`. -/
def VectorStoreModel.search (vs : VectorStoreModel) (query : String)
    (course_name : Option String) (lesson_number : Option Int) : SearchResults :=
  match course_name with
  | some name =>
    match vs.resolveNearest name with
    | none =>
      SearchResults.emptyWithError ("No course found matching \x27" ++ name ++ "\x27")
    | some title => vs.contentQuery query (build_filter (some title) lesson_number)
  | none => vs.contentQuery query (build_filter none lesson_number)

/-- Modelled from the spec: the source label of one chunk (spec section 3,
`SourceLabel`) — the course title, with a `" - Lesson n"` suffix when the
metadata's lesson number is present.  `search_tools.py` is not under
`src/`. -/
def sourceLabel (m : ChunkMeta) : String :=
  match m.lesson_number with
  | some n => m.course_title ++ " - Lesson " ++ toString n
  | none => m.course_title

/-- Per-result source labels of a result set, one per (document, metadata)
pair in result order. -/
def resultLabels (r : SearchResults) : List String :=
  (r.documents.zip r.metadata).map fun p => sourceLabel p.2

/-- Modelled from the spec: first-occurrence deduplication of the tracked
source list (spec section 4.5: duplicates removed by first occurrence,
stable order), written with an accumulator of already-seen labels.
`search_tools.py` is not under `src/`. -/
def dedupFirstAux (seen : List String) : List String → List String
  | [] => []
  | a :: rest =>
    if a ∈ seen then dedupFirstAux seen rest
    else a :: dedupFirstAux (a :: seen) rest

/-- First-occurrence deduplication starting from an empty seen set. -/
def dedupFirst (l : List String) : List String :=
  dedupFirstAux [] l

/-- Modelled from the spec: the no-result message of the formatter (spec
section 4.5) — `"No relevant content found"` with a suffix naming the
applied filters. -/
def noContentMessage (course_name : Option String) (lesson_number : Option Int) : String :=
  "No relevant content found"
    ++ (match course_name with
        | some c => " in course \x27" ++ c ++ "\x27"
        | none => "")
    ++ (match lesson_number with
        | some n => " in lesson " ++ toString n
        | none => "")

/-- Modelled from the spec: `CourseSearchTool._format_results` (spec section
4.5) — an error result's display text is the error verbatim; an empty
errorless result yields the no-content message with the active filters;
otherwise each pair becomes a `[label]` block followed by the document,
blocks joined by blank lines, and the tracker's source list is the
first-occurrence deduplication of the per-result labels.  The tracked list
(`self.last_sources`) is returned as the second component.
`search_tools.py` is not under `src/`. -/
def format_results (r : SearchResults) (course_name : Option String)
    (lesson_number : Option Int) : String × List String :=
  match r.error with
  | some err => (err, [])
  | none =>
    if r.documents.isEmpty then (noContentMessage course_name lesson_number, [])
    else
      (String.intercalate "\n\n"
          ((r.documents.zip r.metadata).map fun p => "[" ++ sourceLabel p.2 ++ "]\n" ++ p.1),
        dedupFirst (resultLabels r))

/-
Trace analysis helpers: scanners over the recorded event list of a run.
-/

/-- Round numbers of all tool executions in a trace, in execution order. -/
def toolExecRounds (evs : List Event) : List Nat :=
  evs.filterMap fun e =>
    match e with
    | Event.toolExec r _ _ => some r
    | _ => none

/-- Tool-call ids of all tool executions in a trace, in execution order. -/
def toolExecIds (evs : List Event) : List String :=
  evs.filterMap fun e =>
    match e with
    | Event.toolExec _ tc _ => some tc.id
    | _ => none

/-- Whether an event is a per-round model call issued by `_make_api_call`. -/
def isRoundCall : Event → Bool
  | Event.roundCall _ _ => true
  | _ => false

/-- Whether an event is a final-synthesis call issued by
`_get_final_response`. -/
def isSynthesisCall : Event → Bool
  | Event.synthesisCall _ _ => true
  | _ => false

/-- Number of per-round model calls in a trace. -/
def countRoundCalls (evs : List Event) : Nat :=
  (evs.filter isRoundCall).length

/-- Number of final-synthesis calls in a trace. -/
def countSynthesisCalls (evs : List Event) : Nat :=
  (evs.filter isSynthesisCall).length

/-- Value of the `tools` request parameter of every per-round model call in
the trace, in order. -/
def roundCallToolParams (evs : List Event) : List (Option (List OpenAITool)) :=
  evs.filterMap fun e =>
    match e with
    | Event.roundCall req _ => some req.tools
    | _ => none

/-- Value of the `tools` request parameter of every continuation-check call
in the trace, in order. -/
def continuationToolParams (evs : List Event) : List (Option (List OpenAITool)) :=
  evs.filterMap fun e =>
    match e with
    | Event.continuationCall req _ => some req.tools
    | _ => none

/-- Well-formedness of the model oracle: a response whose finish reason is
`"tool_calls"` carries at least one tool call, as the OpenAI chat API
guarantees. -/
def WFClient (client : Nat → Response) : Prop :=
  ∀ i, (client i).finish_reason = "tool_calls" → (client i).message.tool_calls ≠ []

/-- Role-`tool` result messages appended for one round's tool calls. -/
def toolResultMsgs (tm : ToolManager) (resp : Response) : List ChatMessage :=
  resp.message.tool_calls.map fun tc => ChatMessage.tool tc.id (runToolCall tm tc)

/-- Tool-execution events recorded for one round's tool calls. -/
def toolExecEvents (tm : ToolManager) (round : Nat) (resp : Response) : List Event :=
  resp.message.tool_calls.map fun tc => Event.toolExec round tc (runToolCall tm tc)

/-
Characterization lemmas for the orchestration functions.
-/

/-- Executing a list of tool calls appends exactly one role-`tool` message
per call, in request order, and records exactly one tool-execution event per
call, in request order; the call index is untouched. -/
theorem execToolCalls_spec (tm : ToolManager) (round : Nat) :
    ∀ (tcs : List ToolCall) (s : GenState),
    execToolCalls tm round tcs s =
      ({ messages := s.messages ++ tcs.map fun tc => ChatMessage.tool tc.id (runToolCall tm tc),
         callIdx := s.callIdx },
       tcs.map fun tc => Event.toolExec round tc (runToolCall tm tc)) := by
  intro tcs
  induction tcs with
  | nil => intro s; simp [execToolCalls]
  | cons tc rest ih =>
    intro s
    simp [execToolCalls, ih]

/-- Unfolding of the loop body when no tool manager was supplied: the round's
model response is returned directly, whatever its finish reason. -/
theorem genLoop_no_manager (env : GenEnv) (f round_num : Nat) (s : GenState)
    (hm : env.toolManager = none) :
    genLoop env (f + 1) round_num s =
      ((env.client s.callIdx).message.content,
       { messages := s.messages, callIdx := s.callIdx + 1 },
       [Event.roundCall { messages := s.messages, tools := toolsParamOf env.tools }
          (env.client s.callIdx)]) := by
  simp [genLoop, make_api_call, hm]

/-- Unfolding of the loop body when the round's response requests no tools:
the response content is returned directly. -/
theorem genLoop_direct (env : GenEnv) (tm : ToolManager) (f round_num : Nat) (s : GenState)
    (hm : env.toolManager = some tm)
    (hfr : (env.client s.callIdx).finish_reason ≠ "tool_calls") :
    genLoop env (f + 1) round_num s =
      ((env.client s.callIdx).message.content,
       { messages := s.messages, callIdx := s.callIdx + 1 },
       [Event.roundCall { messages := s.messages, tools := toolsParamOf env.tools }
          (env.client s.callIdx)]) := by
  simp [genLoop, make_api_call, hm, hfr]

/-- Unfolding of the loop body on the final round (`round_num + 1 >=
max_rounds`) when tools were requested: the tools are executed, the
continuation check is skipped, and a forced synthesis call produces the
answer. -/
theorem genLoop_last_round (env : GenEnv) (tm : ToolManager) (f round_num : Nat) (s : GenState)
    (hm : env.toolManager = some tm)
    (hfr : (env.client s.callIdx).finish_reason = "tool_calls")
    (hguard : env.maxRounds ≤ round_num + 1) :
    genLoop env (f + 1) round_num s =
      ((env.client (s.callIdx + 1)).message.content,
       { messages := s.messages ++ [ChatMessage.assistant (env.client s.callIdx).message]
           ++ toolResultMsgs tm (env.client s.callIdx),
         callIdx := s.callIdx + 2 },
       Event.roundCall { messages := s.messages, tools := toolsParamOf env.tools }
           (env.client s.callIdx)
         :: toolExecEvents tm (round_num + 1) (env.client s.callIdx)
         ++ [Event.synthesisCall
              { messages := s.messages ++ [ChatMessage.assistant (env.client s.callIdx).message]
                  ++ toolResultMsgs tm (env.client s.callIdx)
                  ++ [ChatMessage.user finalSynthesisPrompt],
                tools := none }
              (env.client (s.callIdx + 1))]) := by
  simp [genLoop, make_api_call, hm, hfr, handle_tool_execution_round, execToolCalls_spec,
    hguard, pyTruthy, get_final_response, toolResultMsgs, toolExecEvents]

/-- Unfolding of the loop body on a non-final round when tools were requested
and the continuation check requests tools again: the decision message is
appended to the conversation and the loop advances to the next round. -/
theorem genLoop_cont_continue (env : GenEnv) (tm : ToolManager) (f round_num : Nat)
    (s : GenState)
    (hm : env.toolManager = some tm)
    (hfr : (env.client s.callIdx).finish_reason = "tool_calls")
    (hguard : ¬ env.maxRounds ≤ round_num + 1)
    (hc : (env.client (s.callIdx + 1)).finish_reason = "tool_calls") :
    genLoop env (f + 1) round_num s =
      ((genLoop env f (round_num + 1)
          { messages := s.messages ++ [ChatMessage.assistant (env.client s.callIdx).message]
              ++ toolResultMsgs tm (env.client s.callIdx)
              ++ [ChatMessage.assistant (env.client (s.callIdx + 1)).message],
            callIdx := s.callIdx + 2 }).1,
       (genLoop env f (round_num + 1)
          { messages := s.messages ++ [ChatMessage.assistant (env.client s.callIdx).message]
              ++ toolResultMsgs tm (env.client s.callIdx)
              ++ [ChatMessage.assistant (env.client (s.callIdx + 1)).message],
            callIdx := s.callIdx + 2 }).2.1,
       Event.roundCall { messages := s.messages, tools := toolsParamOf env.tools }
           (env.client s.callIdx)
         :: toolExecEvents tm (round_num + 1) (env.client s.callIdx)
         ++ [Event.continuationCall
              { messages := s.messages ++ [ChatMessage.assistant (env.client s.callIdx).message]
                  ++ toolResultMsgs tm (env.client s.callIdx)
                  ++ [ChatMessage.user continuationDecisionPrompt],
                tools := none }
              (env.client (s.callIdx + 1))]
         ++ (genLoop env f (round_num + 1)
              { messages := s.messages ++ [ChatMessage.assistant (env.client s.callIdx).message]
                  ++ toolResultMsgs tm (env.client s.callIdx)
                  ++ [ChatMessage.assistant (env.client (s.callIdx + 1)).message],
                callIdx := s.callIdx + 2 }).2.2) := by
  simp [genLoop, make_api_call, hm, hfr, handle_tool_execution_round, execToolCalls_spec,
    hguard, should_continue_to_next_round, hc, toolResultMsgs, toolExecEvents]

/-- Unfolding of the loop body on a non-final round when tools were requested
and the continuation check returns a direct answer with truthy content: that
content is the final answer. -/
theorem genLoop_cont_stop_truthy (env : GenEnv) (tm : ToolManager) (f round_num : Nat)
    (s : GenState)
    (hm : env.toolManager = some tm)
    (hfr : (env.client s.callIdx).finish_reason = "tool_calls")
    (hguard : ¬ env.maxRounds ≤ round_num + 1)
    (hc : (env.client (s.callIdx + 1)).finish_reason ≠ "tool_calls")
    (ht : pyTruthy (env.client (s.callIdx + 1)).message.content = true) :
    genLoop env (f + 1) round_num s =
      ((env.client (s.callIdx + 1)).message.content,
       { messages := s.messages ++ [ChatMessage.assistant (env.client s.callIdx).message]
           ++ toolResultMsgs tm (env.client s.callIdx),
         callIdx := s.callIdx + 2 },
       Event.roundCall { messages := s.messages, tools := toolsParamOf env.tools }
           (env.client s.callIdx)
         :: toolExecEvents tm (round_num + 1) (env.client s.callIdx)
         ++ [Event.continuationCall
              { messages := s.messages ++ [ChatMessage.assistant (env.client s.callIdx).message]
                  ++ toolResultMsgs tm (env.client s.callIdx)
                  ++ [ChatMessage.user continuationDecisionPrompt],
                tools := none }
              (env.client (s.callIdx + 1))]) := by
  simp [genLoop, make_api_call, hm, hfr, handle_tool_execution_round, execToolCalls_spec,
    hguard, should_continue_to_next_round, hc, ht, toolResultMsgs, toolExecEvents]

/-- Unfolding of the loop body on a non-final round when tools were requested
and the continuation check returns a direct answer with falsy (absent or
empty) content: the code falls through to a forced synthesis call. -/
theorem genLoop_cont_stop_falsy (env : GenEnv) (tm : ToolManager) (f round_num : Nat)
    (s : GenState)
    (hm : env.toolManager = some tm)
    (hfr : (env.client s.callIdx).finish_reason = "tool_calls")
    (hguard : ¬ env.maxRounds ≤ round_num + 1)
    (hc : (env.client (s.callIdx + 1)).finish_reason ≠ "tool_calls")
    (ht : pyTruthy (env.client (s.callIdx + 1)).message.content = false) :
    genLoop env (f + 1) round_num s =
      ((env.client (s.callIdx + 2)).message.content,
       { messages := s.messages ++ [ChatMessage.assistant (env.client s.callIdx).message]
           ++ toolResultMsgs tm (env.client s.callIdx),
         callIdx := s.callIdx + 3 },
       Event.roundCall { messages := s.messages, tools := toolsParamOf env.tools }
           (env.client s.callIdx)
         :: toolExecEvents tm (round_num + 1) (env.client s.callIdx)
         ++ [Event.continuationCall
              { messages := s.messages ++ [ChatMessage.assistant (env.client s.callIdx).message]
                  ++ toolResultMsgs tm (env.client s.callIdx)
                  ++ [ChatMessage.user continuationDecisionPrompt],
                tools := none }
              (env.client (s.callIdx + 1))]
         ++ [Event.synthesisCall
              { messages := s.messages ++ [ChatMessage.assistant (env.client s.callIdx).message]
                  ++ toolResultMsgs tm (env.client s.callIdx)
                  ++ [ChatMessage.user finalSynthesisPrompt],
                tools := none }
              (env.client (s.callIdx + 2))]) := by
  simp [genLoop, make_api_call, hm, hfr, handle_tool_execution_round, execToolCalls_spec,
    hguard, should_continue_to_next_round, hc, ht, get_final_response, toolResultMsgs,
    toolExecEvents]

/-- A loop with at least one remaining iteration always begins by issuing a
fresh per-round model call: the first recorded event is a `roundCall` with
the current message history and the advertised tools. -/
theorem genLoop_head_roundCall (env : GenEnv) (f round_num : Nat) (s : GenState) :
    ∃ tail, (genLoop env (f + 1) round_num s).2.2 =
      Event.roundCall { messages := s.messages, tools := toolsParamOf env.tools }
          (env.client s.callIdx) :: tail := by
  cases hm : env.toolManager with
  | none => exact ⟨_, by rw [genLoop_no_manager env f round_num s hm]⟩
  | some tm =>
    by_cases hfr : (env.client s.callIdx).finish_reason = "tool_calls"
    · by_cases hguard : env.maxRounds ≤ round_num + 1
      · exact ⟨_, by rw [genLoop_last_round env tm f round_num s hm hfr hguard]; try rfl⟩
      · by_cases hc : (env.client (s.callIdx + 1)).finish_reason = "tool_calls"
        · exact ⟨_, by rw [genLoop_cont_continue env tm f round_num s hm hfr hguard hc]; try rfl⟩
        · cases ht : pyTruthy (env.client (s.callIdx + 1)).message.content
          · exact ⟨_, by rw [genLoop_cont_stop_falsy env tm f round_num s hm hfr hguard hc ht]; try rfl⟩
          · exact ⟨_, by rw [genLoop_cont_stop_truthy env tm f round_num s hm hfr hguard hc ht]; try rfl⟩
    · exact ⟨_, by rw [genLoop_direct env tm f round_num s hm hfr]; try rfl⟩

/-- The event trace of a loop run is never empty. -/
theorem genLoop_events_ne_nil (env : GenEnv) (fuel round_num : Nat) (s : GenState) :
    (genLoop env fuel round_num s).2.2 ≠ [] := by
  cases fuel with
  | zero => simp [genLoop, get_final_response]
  | succ f =>
    obtain ⟨tail, htail⟩ := genLoop_head_roundCall env f round_num s
    simp [htail]

/-- Every tool execution recorded by a loop started at `round_num` with
`fuel` remaining iterations carries a 1-based round number strictly above
`round_num` and at most `round_num + fuel`. -/
theorem genLoop_toolExecRounds_bounds (env : GenEnv) :
    ∀ fuel round_num : Nat, ∀ s : GenState, ∀ r : Nat,
    r ∈ toolExecRounds (genLoop env fuel round_num s).2.2 →
    round_num + 1 ≤ r ∧ r ≤ round_num + fuel := by
  intro fuel
  induction fuel with
  | zero =>
    intro round_num s r hr
    simp [genLoop, get_final_response, toolExecRounds] at hr
  | succ f ih =>
    intro round_num s r hr
    cases hm : env.toolManager with
    | none =>
      rw [genLoop_no_manager env f round_num s hm] at hr
      simp [toolExecRounds] at hr
    | some tm =>
      by_cases hfr : (env.client s.callIdx).finish_reason = "tool_calls"
      · by_cases hguard : env.maxRounds ≤ round_num + 1
        · rw [genLoop_last_round env tm f round_num s hm hfr hguard] at hr
          simp [toolExecRounds, toolExecEvents, List.filterMap_cons, List.filterMap_append] at hr
          omega
        · by_cases hc : (env.client (s.callIdx + 1)).finish_reason = "tool_calls"
          · rw [genLoop_cont_continue env tm f round_num s hm hfr hguard hc] at hr
            simp [toolExecRounds, toolExecEvents, List.filterMap_cons,
              List.filterMap_append] at hr
            rcases hr with hr | hr
            · omega
            · have := ih (round_num + 1) _ r (by simpa [toolExecRounds] using hr)
              omega
          · cases ht : pyTruthy (env.client (s.callIdx + 1)).message.content
            · rw [genLoop_cont_stop_falsy env tm f round_num s hm hfr hguard hc ht] at hr
              simp [toolExecRounds, toolExecEvents, List.filterMap_cons,
                List.filterMap_append] at hr
              omega
            · rw [genLoop_cont_stop_truthy env tm f round_num s hm hfr hguard hc ht] at hr
              simp [toolExecRounds, toolExecEvents, List.filterMap_cons,
                List.filterMap_append] at hr
              omega
      · rw [genLoop_direct env tm f round_num s hm hfr] at hr
        simp [toolExecRounds] at hr

/-- A forced final-synthesis call occurred somewhere in the trace. -/
def SynthesisHappened (evs : List Event) : Prop :=
  ∃ req resp, Event.synthesisCall req resp ∈ evs

/-- At least one tool execution of round `n` occurred in the trace. -/
def ToolsExecutedInRound (evs : List Event) (n : Nat) : Prop :=
  ∃ tc res, Event.toolExec n tc res ∈ evs

/-- Some continuation check in the trace came back without a tool request
but with Python-falsy (absent or empty) content. -/
def EmptyAnswerContinuation (evs : List Event) : Prop :=
  ∃ req resp, Event.continuationCall req resp ∈ evs ∧
    resp.finish_reason ≠ "tool_calls" ∧ pyTruthy resp.message.content = false

/-- Distribution of `SynthesisHappened` over list append. -/
theorem synthesisHappened_append (l₁ l₂ : List Event) :
    SynthesisHappened (l₁ ++ l₂) ↔ SynthesisHappened l₁ ∨ SynthesisHappened l₂ := by
  simp [SynthesisHappened, List.mem_append, exists_or]

/-- Distribution of `SynthesisHappened` over cons. -/
theorem synthesisHappened_cons (e : Event) (l : List Event) :
    SynthesisHappened (e :: l) ↔
      (∃ req resp, Event.synthesisCall req resp = e) ∨ SynthesisHappened l := by
  simp [SynthesisHappened, List.mem_cons, exists_or]

/-- Tool-execution events are never synthesis calls. -/
theorem synthesisHappened_toolExecEvents (tm : ToolManager) (r : Nat) (resp : Response) :
    ¬ SynthesisHappened (toolExecEvents tm r resp) := by
  simp [SynthesisHappened, toolExecEvents]

/-- Distribution of `ToolsExecutedInRound` over list append. -/
theorem toolsExecuted_append (l₁ l₂ : List Event) (n : Nat) :
    ToolsExecutedInRound (l₁ ++ l₂) n ↔
      ToolsExecutedInRound l₁ n ∨ ToolsExecutedInRound l₂ n := by
  simp [ToolsExecutedInRound, List.mem_append, exists_or]

/-- Distribution of `ToolsExecutedInRound` over cons. -/
theorem toolsExecuted_cons (e : Event) (l : List Event) (n : Nat) :
    ToolsExecutedInRound (e :: l) n ↔
      (∃ tc res, Event.toolExec n tc res = e) ∨ ToolsExecutedInRound l n := by
  simp [ToolsExecutedInRound, List.mem_cons, exists_or]

/-- The tool-execution events of one round expose exactly that round's
number and its non-emptiness. -/
theorem toolsExecuted_toolExecEvents (tm : ToolManager) (r : Nat) (resp : Response) (n : Nat) :
    ToolsExecutedInRound (toolExecEvents tm r resp) n ↔
      n = r ∧ resp.message.tool_calls ≠ [] := by
  constructor
  · rintro ⟨tc, res, hmem⟩
    simp only [toolExecEvents, List.mem_map] at hmem
    obtain ⟨a, ha, heq⟩ := hmem
    obtain ⟨hn, -, -⟩ := Event.toolExec.inj heq.symm
    exact ⟨hn, List.ne_nil_of_mem ha⟩
  · rintro ⟨rfl, hne⟩
    obtain ⟨tc, rest, hcons⟩ := List.exists_cons_of_ne_nil hne
    exact ⟨tc, runToolCall tm tc, by simp [toolExecEvents, hcons]⟩

/-- Distribution of `EmptyAnswerContinuation` over list append. -/
theorem emptyAnswerCont_append (l₁ l₂ : List Event) :
    EmptyAnswerContinuation (l₁ ++ l₂) ↔
      EmptyAnswerContinuation l₁ ∨ EmptyAnswerContinuation l₂ := by
  simp only [EmptyAnswerContinuation, List.mem_append]
  constructor
  · rintro ⟨req, resp, hmem | hmem, h1, h2⟩
    · exact Or.inl ⟨req, resp, hmem, h1, h2⟩
    · exact Or.inr ⟨req, resp, hmem, h1, h2⟩
  · rintro (⟨req, resp, hmem, h1, h2⟩ | ⟨req, resp, hmem, h1, h2⟩)
    · exact ⟨req, resp, Or.inl hmem, h1, h2⟩
    · exact ⟨req, resp, Or.inr hmem, h1, h2⟩

/-- Distribution of `EmptyAnswerContinuation` over cons. -/
theorem emptyAnswerCont_cons (e : Event) (l : List Event) :
    EmptyAnswerContinuation (e :: l) ↔
      (∃ req resp, Event.continuationCall req resp = e ∧
        resp.finish_reason ≠ "tool_calls" ∧ pyTruthy resp.message.content = false) ∨
      EmptyAnswerContinuation l := by
  simp only [EmptyAnswerContinuation, List.mem_cons]
  constructor
  · rintro ⟨req, resp, hmem | hmem, h1, h2⟩
    · exact Or.inl ⟨req, resp, hmem, h1, h2⟩
    · exact Or.inr ⟨req, resp, hmem, h1, h2⟩
  · rintro (⟨req, resp, hmem, h1, h2⟩ | ⟨req, resp, hmem, h1, h2⟩)
    · exact ⟨req, resp, Or.inl hmem, h1, h2⟩
    · exact ⟨req, resp, Or.inr hmem, h1, h2⟩

/-- Tool-execution events are never continuation calls. -/
theorem emptyAnswerCont_toolExecEvents (tm : ToolManager) (r : Nat) (resp : Response) :
    ¬ EmptyAnswerContinuation (toolExecEvents tm r resp) := by
  rintro ⟨req, resp', hmem, -, -⟩
  simp [toolExecEvents] at hmem

/-- Characterization of the forced synthesis call over any remaining-loop
run with a well-formed oracle: a synthesis call happens exactly when the
final round `max_rounds` executed tools, or some continuation check
returned a direct answer with falsy content; and whenever the final round
executed tools, the run ends with the synthesis call, whose response
content is the returned answer and whose request carries no tools. -/
theorem genLoop_synthesis_iff (env : GenEnv) (hwf : WFClient env.client) :
    ∀ fuel round_num : Nat, ∀ s : GenState,
    round_num + fuel = env.maxRounds → 1 ≤ fuel →
    (SynthesisHappened (genLoop env fuel round_num s).2.2 ↔
      ToolsExecutedInRound (genLoop env fuel round_num s).2.2 env.maxRounds ∨
      EmptyAnswerContinuation (genLoop env fuel round_num s).2.2)
  ∧ (ToolsExecutedInRound (genLoop env fuel round_num s).2.2 env.maxRounds →
      ∃ req resp,
        (genLoop env fuel round_num s).2.2.getLast? = some (Event.synthesisCall req resp)
        ∧ (genLoop env fuel round_num s).1 = resp.message.content
        ∧ req.tools = none) := by
  intro fuel
  induction fuel with
  | zero => intro round_num s hinv hge; omega
  | succ f ih =>
    intro round_num s hinv hge
    cases hm : env.toolManager with
    | none =>
      rw [genLoop_no_manager env f round_num s hm]
      constructor
      · simp [SynthesisHappened, ToolsExecutedInRound, EmptyAnswerContinuation]
      · simp [ToolsExecutedInRound]
    | some tm =>
      by_cases hfr : (env.client s.callIdx).finish_reason = "tool_calls"
      · rcases Nat.eq_zero_or_pos f with hf0 | hfpos
        · subst hf0
          have hguard : env.maxRounds ≤ round_num + 1 := by omega
          have hN : env.maxRounds = round_num + 1 := by omega
          rw [genLoop_last_round env tm 0 round_num s hm hfr hguard]
          dsimp only
          have hne := hwf s.callIdx hfr
          constructor
          · apply iff_of_true
            · exact (synthesisHappened_append _ _).mpr (Or.inr ⟨_, _, List.mem_singleton_self _⟩)
            · refine Or.inl ((toolsExecuted_append _ _ _).mpr (Or.inl
                ((toolsExecuted_cons _ _ _).mpr (Or.inr
                  ((toolsExecuted_toolExecEvents _ _ _ _).mpr ⟨hN, hne⟩)))))
          · intro _
            exact ⟨_, _, by rw [List.getLast?_concat], rfl, rfl⟩
        · have hguard : ¬ env.maxRounds ≤ round_num + 1 := by omega
          have hne1 : env.maxRounds ≠ round_num + 1 := by omega
          by_cases hc : (env.client (s.callIdx + 1)).finish_reason = "tool_calls"
          · rw [genLoop_cont_continue env tm f round_num s hm hfr hguard hc]
            dsimp only
            obtain ⟨ih1, ih2⟩ := ih (round_num + 1)
              { messages := s.messages ++ [ChatMessage.assistant (env.client s.callIdx).message]
                  ++ toolResultMsgs tm (env.client s.callIdx)
                  ++ [ChatMessage.assistant (env.client (s.callIdx + 1)).message],
                callIdx := s.callIdx + 2 }
              (by omega) hfpos
            constructor
            · constructor
              · intro hS
                rcases (synthesisHappened_append _ _).mp hS with hX | hrec2
                · rcases (synthesisHappened_append _ _).mp hX with hX2 | hX3
                  · rcases (synthesisHappened_cons _ _).mp hX2 with ⟨req, resp, h⟩ | hmap
                    · simp at h
                    · exact absurd hmap (synthesisHappened_toolExecEvents _ _ _)
                  · rcases hX3 with ⟨req, resp, h⟩
                    simp at h
                · rcases ih1.mp hrec2 with htool | hcont
                  · exact Or.inl ((toolsExecuted_append _ _ _).mpr (Or.inr htool))
                  · exact Or.inr ((emptyAnswerCont_append _ _).mpr (Or.inr hcont))
              · intro hRHS
                apply (synthesisHappened_append _ _).mpr
                refine Or.inr (ih1.mpr ?_)
                rcases hRHS with hT | hE
                · rcases (toolsExecuted_append _ _ _).mp hT with hTX | hTrec
                  · exfalso
                    rcases (toolsExecuted_append _ _ _).mp hTX with hTX2 | hTX3
                    · rcases (toolsExecuted_cons _ _ _).mp hTX2 with ⟨tc, res, h⟩ | hmap
                      · simp at h
                      · rcases (toolsExecuted_toolExecEvents _ _ _ _).mp hmap with ⟨hn, -⟩
                        exact hne1 hn
                    · rcases hTX3 with ⟨tc, res, h⟩
                      simp at h
                  · exact Or.inl hTrec
                · rcases (emptyAnswerCont_append _ _).mp hE with hEX | hErec
                  · exfalso
                    rcases (emptyAnswerCont_append _ _).mp hEX with hEX2 | hEX3
                    · rcases (emptyAnswerCont_cons _ _).mp hEX2 with ⟨req, resp, h, -, -⟩ | hmap
                      · simp at h
                      · exact emptyAnswerCont_toolExecEvents _ _ _ hmap
                    · rcases hEX3 with ⟨req, resp, h, hfin, -⟩
                      rw [List.mem_singleton] at h
                      obtain ⟨-, hresp⟩ := Event.continuationCall.inj h
                      rw [hresp] at hfin
                      exact hfin hc
                  · exact Or.inr hErec
            · intro h
              have hrec : ToolsExecutedInRound
                  (genLoop env f (round_num + 1)
                    { messages := s.messages
                        ++ [ChatMessage.assistant (env.client s.callIdx).message]
                        ++ toolResultMsgs tm (env.client s.callIdx)
                        ++ [ChatMessage.assistant (env.client (s.callIdx + 1)).message],
                      callIdx := s.callIdx + 2 }).2.2 env.maxRounds := by
                rcases (toolsExecuted_append _ _ _).mp h with hTX | hTrec
                · exfalso
                  rcases (toolsExecuted_append _ _ _).mp hTX with hTX2 | hTX3
                  · rcases (toolsExecuted_cons _ _ _).mp hTX2 with ⟨tc, res, hh⟩ | hmap
                    · simp at hh
                    · rcases (toolsExecuted_toolExecEvents _ _ _ _).mp hmap with ⟨hn, -⟩
                      exact hne1 hn
                  · rcases hTX3 with ⟨tc, res, hh⟩
                    simp at hh
                · exact hTrec
              obtain ⟨req, resp, hlast, hans, htools⟩ := ih2 hrec
              refine ⟨req, resp, ?_, hans, htools⟩
              rw [List.getLast?_append_of_ne_nil _ (genLoop_events_ne_nil env f (round_num + 1) _)]
              exact hlast
          · cases ht : pyTruthy (env.client (s.callIdx + 1)).message.content
            · rw [genLoop_cont_stop_falsy env tm f round_num s hm hfr hguard hc ht]
              dsimp only
              constructor
              · apply iff_of_true
                · exact (synthesisHappened_append _ _).mpr (Or.inr ⟨_, _, List.mem_singleton_self _⟩)
                · refine Or.inr ((emptyAnswerCont_append _ _).mpr (Or.inl
                    ((emptyAnswerCont_append _ _).mpr (Or.inr ⟨_, _, List.mem_singleton_self _, hc, ht⟩))))
              · intro _
                exact ⟨_, _, by rw [List.getLast?_concat], rfl, rfl⟩
            · rw [genLoop_cont_stop_truthy env tm f round_num s hm hfr hguard hc ht]
              dsimp only
              have hnoT : ¬ ToolsExecutedInRound
                  (Event.roundCall { messages := s.messages, tools := toolsParamOf env.tools }
                      (env.client s.callIdx)
                    :: toolExecEvents tm (round_num + 1) (env.client s.callIdx)
                    ++ [Event.continuationCall
                        { messages := s.messages
                            ++ [ChatMessage.assistant (env.client s.callIdx).message]
                            ++ toolResultMsgs tm (env.client s.callIdx)
                            ++ [ChatMessage.user continuationDecisionPrompt],
                          tools := none }
                        (env.client (s.callIdx + 1))]) env.maxRounds := by
                intro hT
                rcases (toolsExecuted_append _ _ _).mp hT with hTX | hTY
                · rcases (toolsExecuted_cons _ _ _).mp hTX with ⟨tc, res, h⟩ | hmap
                  · simp at h
                  · rcases (toolsExecuted_toolExecEvents _ _ _ _).mp hmap with ⟨hn, -⟩
                    exact hne1 hn
                · rcases hTY with ⟨tc, res, h⟩
                  simp at h
              constructor
              · apply iff_of_false
                · intro hS
                  rcases (synthesisHappened_append _ _).mp hS with hX | hY
                  · rcases (synthesisHappened_cons _ _).mp hX with ⟨req, resp, h⟩ | hmap
                    · simp at h
                    · exact synthesisHappened_toolExecEvents _ _ _ hmap
                  · rcases hY with ⟨req, resp, h⟩
                    simp at h
                · rintro (hT | hE)
                  · exact hnoT hT
                  · rcases (emptyAnswerCont_append _ _).mp hE with hEX | hEY
                    · rcases (emptyAnswerCont_cons _ _).mp hEX with ⟨req, resp, h, -, -⟩ | hmap
                      · simp at h
                      · exact emptyAnswerCont_toolExecEvents _ _ _ hmap
                    · rcases hEY with ⟨req, resp, h, -, hth⟩
                      rw [List.mem_singleton] at h
                      obtain ⟨-, hresp⟩ := Event.continuationCall.inj h
                      rw [hresp] at hth
                      rw [ht] at hth
                      simp at hth
              · intro hT
                exact absurd hT hnoT
      · rw [genLoop_direct env tm f round_num s hm hfr]
        constructor
        · simp [SynthesisHappened, ToolsExecutedInRound, EmptyAnswerContinuation]
        · simp [ToolsExecutedInRound]

/-
Concrete fixtures used by witnesses and counterexamples.
-/

/-- A concrete registered tool, as the tests pass to `generate_response`. -/
def wTool : ToolSpec :=
  { name := "search_course_content", description := "Search for course content",
    input_schema := "object" }

/-- A concrete tool manager: the payload `"ok"` parses and executes to
`"Tool result"`; any other payload fails to parse like malformed JSON. -/
def wToolManager : ToolManager :=
  { parseArgs := fun s =>
      if s == "ok" then Except.ok [("query", "test")]
      else Except.error "Expecting value: line 1 column 1 (char 0)"
    executeTool := fun name _ =>
      if name == "search_course_content" then Except.ok "Tool result"
      else Except.error "boom" }

/-- A concrete well-formed tool call whose payload parses. -/
def tcOK : ToolCall :=
  { id := "call_1", name := "search_course_content", arguments := "ok" }

/-- A concrete tool call whose raw argument payload is malformed JSON. -/
def tcBad : ToolCall :=
  { id := "call_bad", name := "search_course_content", arguments := "notjson" }

/-- A response that requests the given tool calls. -/
def respToolsOf (tcs : List ToolCall) : Response :=
  { finish_reason := "tool_calls", message := { content := none, tool_calls := tcs } }

/-- A response that answers directly with the given content. -/
def respStopOf (c : Option String) : Response :=
  { finish_reason := "stop", message := { content := c, tool_calls := [] } }

/-- A trace contains a synthesis call exactly when its synthesis-call count
is non-zero. -/
theorem synthesisHappened_iff_count (evs : List Event) :
    SynthesisHappened evs ↔ countSynthesisCalls evs ≠ 0 := by
  constructor
  · rintro ⟨req, resp, hmem⟩
    have hf : Event.synthesisCall req resp ∈ evs.filter isSynthesisCall :=
      List.mem_filter.mpr ⟨hmem, rfl⟩
    have := List.ne_nil_of_mem hf
    simpa [countSynthesisCalls, List.length_eq_zero] using this
  · intro h
    have hne : evs.filter isSynthesisCall ≠ [] := by
      intro hnil
      exact h (by simp [countSynthesisCalls, hnil])
    obtain ⟨e, rest, hcons⟩ := List.exists_cons_of_ne_nil hne
    have he : e ∈ evs.filter isSynthesisCall := by rw [hcons]; exact List.mem_cons_self e rest
    have hmem := List.mem_of_mem_filter he
    have hse := List.of_mem_filter he
    cases e with
    | synthesisCall req resp => exact ⟨req, resp, hmem⟩
    | roundCall req resp => simp [isSynthesisCall] at hse
    | toolExec r tc res => simp [isSynthesisCall] at hse
    | continuationCall req resp => simp [isSynthesisCall] at hse

/-- The loop makes at most `2 * fuel + 1` further client calls, whatever
the oracle replies: at most one round call and one continuation check per
remaining iteration, plus at most one synthesis call at the end. -/
theorem genLoop_callIdx_bound (env : GenEnv) :
    ∀ fuel round_num : Nat, ∀ s : GenState,
    (genLoop env fuel round_num s).2.1.callIdx ≤ s.callIdx + 2 * fuel + 1 := by
  intro fuel
  induction fuel with
  | zero =>
    intro round_num s
    simp [genLoop, get_final_response]
  | succ f ih =>
    intro round_num s
    cases hm : env.toolManager with
    | none =>
      rw [genLoop_no_manager env f round_num s hm]
      dsimp only
      omega
    | some tm =>
      by_cases hfr : (env.client s.callIdx).finish_reason = "tool_calls"
      · by_cases hguard : env.maxRounds ≤ round_num + 1
        · rw [genLoop_last_round env tm f round_num s hm hfr hguard]
          dsimp only
          omega
        · by_cases hc : (env.client (s.callIdx + 1)).finish_reason = "tool_calls"
          · rw [genLoop_cont_continue env tm f round_num s hm hfr hguard hc]
            have := ih (round_num + 1)
              { messages := s.messages ++ [ChatMessage.assistant (env.client s.callIdx).message]
                  ++ toolResultMsgs tm (env.client s.callIdx)
                  ++ [ChatMessage.assistant (env.client (s.callIdx + 1)).message],
                callIdx := s.callIdx + 2 }
            dsimp only
            dsimp only at this
            omega
          · cases ht : pyTruthy (env.client (s.callIdx + 1)).message.content
            · rw [genLoop_cont_stop_falsy env tm f round_num s hm hfr hguard hc ht]
              dsimp only
              omega
            · rw [genLoop_cont_stop_truthy env tm f round_num s hm hfr hguard hc ht]
              dsimp only
              omega
      · rw [genLoop_direct env tm f round_num s hm hfr]
        dsimp only
        omega

/-
Claim theorems.
-/

/-- C1: for every `generate_response` run with `max_rounds = N >= 1`, at
most `N` distinct rounds contain at least one tool execution (every recorded
tool execution carries a round number in `1..N`, so the deduplicated list of
rounds that executed tools has length at most `N`), and the total number of
model calls made is at most `2N + 1` however persistently the oracle keeps
requesting tools.  Termination with an answer is the totality of
`generate_response` itself: the loop is a structural recursion on the
remaining `range(max_rounds)` iterations, whatever the model oracle
replies. -/
theorem claim_C1_round_bound (env : GenEnv) (query : String) (hist : Option String)
    (hN : 1 ≤ env.maxRounds) :
    ((toolExecRounds (generate_response env query hist).2.2).dedup).length ≤ env.maxRounds
  ∧ (generate_response env query hist).2.1.callIdx ≤ 2 * env.maxRounds + 1 := by
  constructor
  · have hsub : (toolExecRounds (generate_response env query hist).2.2).dedup ⊆
        List.range' 1 env.maxRounds := by
      intro r hr
      have hmem := List.dedup_subset _ hr
      have hb := genLoop_toolExecRounds_bounds env env.maxRounds 0
        { messages := [ChatMessage.system (systemContentOf hist), ChatMessage.user query],
          callIdx := 0 } r (by simpa [generate_response] using hmem)
      rw [List.mem_range'_1]
      omega
    have hle := (List.subperm_of_subset (List.nodup_dedup _) hsub).length_le
    simpa [List.length_range'] using hle
  · have hb := genLoop_callIdx_bound env env.maxRounds 0
      { messages := [ChatMessage.system (systemContentOf hist), ChatMessage.user query],
        callIdx := 0 }
    simp only [generate_response]
    dsimp only at hb
    omega

/-- Witness for C1 at a concrete two-round environment. -/
theorem claim_C1_round_bound_witness :
    1 ≤ (2 : Nat) ∧
    ((toolExecRounds (generate_response
        { client := fun i => if i == 0 then respToolsOf [tcOK] else respStopOf (some "answer"),
          tools := some [wTool], toolManager := some wToolManager, maxRounds := 2 }
        "What is testing?" none).2.2).dedup).length ≤ 2 ∧
    (generate_response
        { client := fun i => if i == 0 then respToolsOf [tcOK] else respStopOf (some "answer"),
          tools := some [wTool], toolManager := some wToolManager, maxRounds := 2 }
        "What is testing?" none).2.1.callIdx ≤ 2 * 2 + 1 :=
  ⟨by decide,
   (claim_C1_round_bound
     { client := fun i => if i == 0 then respToolsOf [tcOK] else respStopOf (some "answer"),
       tools := some [wTool], toolManager := some wToolManager, maxRounds := 2 }
     "What is testing?" none (by decide)).1,
   (claim_C1_round_bound
     { client := fun i => if i == 0 then respToolsOf [tcOK] else respStopOf (some "answer"),
       tools := some [wTool], toolManager := some wToolManager, maxRounds := 2 }
     "What is testing?" none (by decide)).2⟩

/-- C5: in a round that executes tools, every requested call is executed in
request order and appends exactly one role-`tool` message and one execution
event (never omitted, never reordered); the recorded content is the tool's
returned string on success and `"Tool execution failed: <cause>"` when
either the JSON argument payload fails to parse or the tool raises, and one
call's failure never prevents the remaining calls (the appended list covers
every requested call regardless of the individual outcomes). -/
theorem claim_C5_tool_results (tm : ToolManager) (round : Nat) (tcs : List ToolCall)
    (s : GenState) :
    ((execToolCalls tm round tcs s).1.messages =
        s.messages ++ tcs.map fun tc => ChatMessage.tool tc.id (runToolCall tm tc))
  ∧ ((execToolCalls tm round tcs s).2 =
        tcs.map fun tc => Event.toolExec round tc (runToolCall tm tc))
  ∧ (∀ tc e, tm.parseArgs tc.arguments = Except.error e →
        runToolCall tm tc = "Tool execution failed: " ++ e)
  ∧ (∀ tc args e, tm.parseArgs tc.arguments = Except.ok args →
        tm.executeTool tc.name args = Except.error e →
        runToolCall tm tc = "Tool execution failed: " ++ e)
  ∧ (∀ tc args v, tm.parseArgs tc.arguments = Except.ok args →
        tm.executeTool tc.name args = Except.ok v → runToolCall tm tc = v) := by
  refine ⟨by rw [execToolCalls_spec], by rw [execToolCalls_spec], ?_, ?_, ?_⟩
  · intro tc e he
    simp [runToolCall, he]
  · intro tc args e hargs he
    simp [runToolCall, hargs, he]
  · intro tc args v hargs hv
    simp [runToolCall, hargs, hv]

/-- Witness for C5: a malformed payload and a successful call executed in
the same round, in order, each leaving exactly one result. -/
theorem claim_C5_tool_results_witness :
    ((execToolCalls wToolManager 1 [tcBad, tcOK] { messages := [], callIdx := 0 }).1.messages =
        [ChatMessage.tool "call_bad"
            "Tool execution failed: Expecting value: line 1 column 1 (char 0)",
          ChatMessage.tool "call_1" "Tool result"])
  ∧ runToolCall wToolManager tcBad =
      "Tool execution failed: " ++ "Expecting value: line 1 column 1 (char 0)" := by
  have h := claim_C5_tool_results wToolManager 1 [tcBad, tcOK] { messages := [], callIdx := 0 }
  exact ⟨by rw [h.1]; decide, h.2.2.1 tcBad "Expecting value: line 1 column 1 (char 0)" rfl⟩

/-- C6: whenever a round's model response requests no tools — in ANY round,
at any conversation state reached by the loop — the orchestrator stops at
once: the remaining trace is just that single per-round model call, the
state advances by that one call, and the answer returned for the whole query
is that response's message content, verbatim.  The second conjunct is the
whole-query instance at the initial state. -/
theorem claim_C6_direct_answer (env : GenEnv) :
    (∀ (f round_num : Nat) (s : GenState),
      (env.client s.callIdx).finish_reason ≠ "tool_calls" →
      genLoop env (f + 1) round_num s =
        ((env.client s.callIdx).message.content,
         { messages := s.messages, callIdx := s.callIdx + 1 },
         [Event.roundCall { messages := s.messages, tools := toolsParamOf env.tools }
            (env.client s.callIdx)]))
  ∧ (∀ (query : String) (hist : Option String), 1 ≤ env.maxRounds →
      (env.client 0).finish_reason ≠ "tool_calls" →
      generate_response env query hist =
        ((env.client 0).message.content,
         { messages := [ChatMessage.system (systemContentOf hist), ChatMessage.user query],
           callIdx := 1 },
         [Event.roundCall
            { messages := [ChatMessage.system (systemContentOf hist), ChatMessage.user query],
              tools := toolsParamOf env.tools }
            (env.client 0)])) := by
  have hstep : ∀ (f round_num : Nat) (s : GenState),
      (env.client s.callIdx).finish_reason ≠ "tool_calls" →
      genLoop env (f + 1) round_num s =
        ((env.client s.callIdx).message.content,
         { messages := s.messages, callIdx := s.callIdx + 1 },
         [Event.roundCall { messages := s.messages, tools := toolsParamOf env.tools }
            (env.client s.callIdx)]) := by
    intro f round_num s hfr
    cases hm : env.toolManager with
    | none => exact genLoop_no_manager env f round_num s hm
    | some tm => exact genLoop_direct env tm f round_num s hm hfr
  refine ⟨hstep, ?_⟩
  intro query hist hN hfr
  obtain ⟨f, hf⟩ : ∃ f, env.maxRounds = f + 1 := ⟨env.maxRounds - 1, by omega⟩
  rw [generate_response, hf]
  exact hstep f 0 _ hfr

/-- Witness for C6 at a concrete environment whose first response answers
directly. -/
theorem claim_C6_direct_answer_witness :
    generate_response
        { client := fun _ => respStopOf (some "Direct response"),
          tools := some [wTool], toolManager := some wToolManager, maxRounds := 2 }
        "Test query" none =
      (some "Direct response",
       { messages := [ChatMessage.system (systemContentOf none), ChatMessage.user "Test query"],
         callIdx := 1 },
       [Event.roundCall
          { messages := [ChatMessage.system (systemContentOf none), ChatMessage.user "Test query"],
            tools := toolsParamOf (some [wTool]) }
          (respStopOf (some "Direct response"))]) :=
  (claim_C6_direct_answer
    { client := fun _ => respStopOf (some "Direct response"),
      tools := some [wTool], toolManager := some wToolManager, maxRounds := 2 }).2
    "Test query" none (by decide) (by decide)

/-- C10: with `tool_manager = None`, even a first response whose finish
reason is `"tool_calls"` is returned directly — its (possibly absent)
message content becomes the answer, no tool is executed, and the run ends
after the single model call without raising. -/
theorem claim_C10_no_tool_manager (env : GenEnv) (query : String) (hist : Option String)
    (hm : env.toolManager = none) (hN : 1 ≤ env.maxRounds)
    (hfr : (env.client 0).finish_reason = "tool_calls") :
    generate_response env query hist =
      ((env.client 0).message.content,
       { messages := [ChatMessage.system (systemContentOf hist), ChatMessage.user query],
         callIdx := 1 },
       [Event.roundCall
          { messages := [ChatMessage.system (systemContentOf hist), ChatMessage.user query],
            tools := toolsParamOf env.tools }
          (env.client 0)]) := by
  obtain ⟨f, hf⟩ : ∃ f, env.maxRounds = f + 1 := ⟨env.maxRounds - 1, by omega⟩
  rw [generate_response, hf]
  exact genLoop_no_manager env f 0 _ hm

/-- Witness for C10: a pure tool-request first response (content `None`)
with no tool manager yields the answer `none` and a one-call trace. -/
theorem claim_C10_no_tool_manager_witness :
    generate_response
        { client := fun _ => respToolsOf [tcOK],
          tools := some [wTool], toolManager := none, maxRounds := 2 }
        "Test query" none =
      (none,
       { messages := [ChatMessage.system (systemContentOf none), ChatMessage.user "Test query"],
         callIdx := 1 },
       [Event.roundCall
          { messages := [ChatMessage.system (systemContentOf none), ChatMessage.user "Test query"],
            tools := toolsParamOf (some [wTool]) }
          (respToolsOf [tcOK])]) :=
  claim_C10_no_tool_manager
    { client := fun _ => respToolsOf [tcOK],
      tools := some [wTool], toolManager := none, maxRounds := 2 }
    "Test query" none rfl (by decide) rfl

/-- C7: the filter builder is the exhaustive 4-case table of the spec — no
filter, a course-title equality, a lesson-number equality, or the `$and`
conjunction of both — and no other output shape exists for any input. -/
theorem claim_C7_filter_table :
    (build_filter none none = none)
  ∧ (∀ t : String, build_filter (some t) none = some (RetrievalFilter.courseTitle t))
  ∧ (∀ n : Int, build_filter none (some n) = some (RetrievalFilter.lessonNumber n))
  ∧ (∀ (t : String) (n : Int), build_filter (some t) (some n) =
      some (RetrievalFilter.and (RetrievalFilter.courseTitle t) (RetrievalFilter.lessonNumber n)))
  ∧ (∀ (c : Option String) (l : Option Int) (f : RetrievalFilter), build_filter c l = some f →
      (∃ t, f = RetrievalFilter.courseTitle t) ∨ (∃ n, f = RetrievalFilter.lessonNumber n) ∨
      (∃ t n, f = RetrievalFilter.and (RetrievalFilter.courseTitle t)
        (RetrievalFilter.lessonNumber n))) := by
  refine ⟨rfl, fun t => rfl, fun n => rfl, fun t n => rfl, ?_⟩
  intro c l f h
  match c, l with
  | none, none => simp [build_filter] at h
  | some t, none => exact Or.inl ⟨t, by simpa [build_filter] using h.symm⟩
  | none, some n => exact Or.inr (Or.inl ⟨n, by simpa [build_filter] using h.symm⟩)
  | some t, some n => exact Or.inr (Or.inr ⟨t, n, by simpa [build_filter] using h.symm⟩)

/-- Witness for C7 at the concrete table row with both fields present. -/
theorem claim_C7_filter_table_witness :
    build_filter (some "C") (some 1) =
      some (RetrievalFilter.and (RetrievalFilter.courseTitle "C") (RetrievalFilter.lessonNumber 1))
  ∧ ((∃ t, RetrievalFilter.and (RetrievalFilter.courseTitle "C") (RetrievalFilter.lessonNumber 1) =
        RetrievalFilter.courseTitle t)
    ∨ (∃ n, RetrievalFilter.and (RetrievalFilter.courseTitle "C") (RetrievalFilter.lessonNumber 1) =
        RetrievalFilter.lessonNumber n)
    ∨ (∃ t n, RetrievalFilter.and (RetrievalFilter.courseTitle "C") (RetrievalFilter.lessonNumber 1) =
        RetrievalFilter.and (RetrievalFilter.courseTitle t) (RetrievalFilter.lessonNumber n))) :=
  ⟨claim_C7_filter_table.2.2.2.1 "C" 1,
   claim_C7_filter_table.2.2.2.2 (some "C") (some 1) _ (claim_C7_filter_table.2.2.2.1 "C" 1)⟩

/-- C8: when the course resolver cannot resolve the requested name, `search`
returns the empty result set whose error is exactly
`"No course found matching '<name>'"`, for every possible content index —
the result does not depend on `contentQuery`, so the content index is never
consulted. -/
theorem claim_C8_unresolvable_course (vs : VectorStoreModel) (query name : String)
    (lesson_number : Option Int) (h : vs.resolveNearest name = none) :
    vs.search query (some name) lesson_number =
      SearchResults.emptyWithError ("No course found matching \x27" ++ name ++ "\x27") := by
  simp [VectorStoreModel.search, h]

/-- Witness for C8: an empty catalog with a content index that would return
a non-empty answer if it were (wrongly) consulted. -/
theorem claim_C8_unresolvable_course_witness :
    VectorStoreModel.search
        { resolveNearest := fun _ => none,
          contentQuery := fun _ _ =>
            { documents := ["never returned"],
              metadata := [{ course_title := "X", lesson_number := none }],
              distances := [0], error := none } }
        "Python" (some "NonexistentCourse") none =
      SearchResults.emptyWithError "No course found matching \x27NonexistentCourse\x27" :=
  claim_C8_unresolvable_course
    { resolveNearest := fun _ => none,
      contentQuery := fun _ _ =>
        { documents := ["never returned"],
          metadata := [{ course_title := "X", lesson_number := none }],
          distances := [0], error := none } }
    "Python" "NonexistentCourse" none rfl

/-- A second tool call requested by a continuation-check response. -/
def tcB : ToolCall :=
  { id := "call_2", name := "search_course_content", arguments := "ok" }

/-- A third tool call, requested by the fresh round-2 model call. -/
def tcC : ToolCall :=
  { id := "call_3", name := "search_course_content", arguments := "ok" }

/-- Environment for the C2 counterexample: round 1 requests a tool, the
continuation check answers without tools but with `None` content, and the
forced synthesis then answers. -/
def envC2x : GenEnv :=
  { client := fun i =>
      if i == 0 then respToolsOf [tcOK]
      else if i == 1 then respStopOf none
      else respStopOf (some "forced synthesis answer"),
    tools := some [wTool], toolManager := some wToolManager, maxRounds := 2 }

/-- C2 counterexample: with `max_rounds = 2`, a run in which a forced
synthesis call happens although round 2 never executed any tool — the
continuation check after round 1 returned a direct answer whose content was
`None`, and `return final_response if final_response else
self._get_final_response(messages)` falls through on the falsy content.
This refutes the claim that the forced synthesis call happens exactly when
round N's tools have been executed and the model still wants more. -/
theorem claim_C2_counterexample :
    SynthesisHappened (generate_response envC2x "q" none).2.2
  ∧ ¬ ToolsExecutedInRound (generate_response envC2x "q" none).2.2 envC2x.maxRounds := by
  constructor
  · rw [synthesisHappened_iff_count]
    decide
  · rintro ⟨tc, res, hmem⟩
    have h2 : envC2x.maxRounds ∈ toolExecRounds (generate_response envC2x "q" none).2.2 :=
      List.mem_filterMap.mpr ⟨Event.toolExec envC2x.maxRounds tc res, hmem, rfl⟩
    have heq : toolExecRounds (generate_response envC2x "q" none).2.2 = [1] := by decide
    rw [heq] at h2
    exact absurd h2 (by decide)

/-- C2 (amended): a forced final-synthesis call happens exactly when round
`N = max_rounds` executed tools, OR when some earlier continuation check
returned a direct answer whose content is Python-falsy (absent or empty);
in the round-`N` case the continuation check is skipped, the run ends with
the synthesis call, the synthesis response is returned as the answer, and
the synthesis request carries no tool access. -/
theorem claim_C2_forced_synthesis (env : GenEnv) (query : String) (hist : Option String)
    (hwf : WFClient env.client) (hN : 1 ≤ env.maxRounds) :
    (SynthesisHappened (generate_response env query hist).2.2 ↔
      ToolsExecutedInRound (generate_response env query hist).2.2 env.maxRounds ∨
      EmptyAnswerContinuation (generate_response env query hist).2.2)
  ∧ (ToolsExecutedInRound (generate_response env query hist).2.2 env.maxRounds →
      ∃ req resp,
        (generate_response env query hist).2.2.getLast? = some (Event.synthesisCall req resp)
        ∧ (generate_response env query hist).1 = resp.message.content
        ∧ req.tools = none) :=
  genLoop_synthesis_iff env hwf env.maxRounds 0
    { messages := [ChatMessage.system (systemContentOf hist), ChatMessage.user query],
      callIdx := 0 }
    (by omega) hN

/-- Environment for the C2 amended witness: every decision requests tools
until round 2's tools have been executed, so the forced synthesis fires. -/
def envC2w : GenEnv :=
  { client := fun i => if i < 3 then respToolsOf [tcOK] else respStopOf (some "Final answer"),
    tools := some [wTool], toolManager := some wToolManager, maxRounds := 2 }

/-- Witness for the amended C2 at a concrete run whose round 2 executes a
tool. -/
theorem claim_C2_forced_synthesis_witness :
    WFClient envC2w.client ∧ SynthesisHappened (generate_response envC2w "q" none).2.2 := by
  have hwf : WFClient envC2w.client := by
    intro i hi
    by_cases h3 : i < 3
    · simp [envC2w, h3, respToolsOf]
    · simp [envC2w, h3, respStopOf] at hi
  refine ⟨hwf, ((claim_C2_forced_synthesis envC2w "q" none hwf (by decide)).1).mpr
    (Or.inl ⟨tcOK, "Tool result", ?_⟩)⟩
  decide

/-- Environment for C3: round 1 requests `call_1`; the continuation check
requests `call_2`; the fresh round-2 model call requests `call_3`; the
forced synthesis then answers. -/
def envC3 : GenEnv :=
  { client := fun i =>
      if i == 0 then respToolsOf [tcOK]
      else if i == 1 then respToolsOf [tcB]
      else if i == 2 then respToolsOf [tcC]
      else respStopOf (some "done"),
    tools := some [wTool], toolManager := some wToolManager, maxRounds := 2 }

/-- C3 counterexample: after the continuation check requests `call_2`, the
next round does NOT execute that retained request — a second fresh
per-round model call is issued (two `roundCall` events), and the tool calls
executed are `call_1` (round 1) and `call_3` (the fresh round-2 response's
request); `call_2` is never executed.  This refutes the claim that no fresh
model call is issued and the already-produced tool request is executed
directly. -/
theorem claim_C3_counterexample :
    countRoundCalls (generate_response envC3 "q" none).2.2 = 2
  ∧ toolExecIds (generate_response envC3 "q" none).2.2 = ["call_1", "call_3"] := by
  constructor
  · decide
  · decide

/-- C3 (amended): when the continuation check's response requests tools on a
non-final round, the orchestrator appends that tool-request message to the
conversation (retained as history only) and advances to the next round, but
the next round still BEGINS WITH A FRESH per-round model call — with the
retained decision message as the last history entry and the tool schemas
advertised — and it is that fresh call's response that drives the next
round's tool execution; the retained request itself is never executed. -/
theorem claim_C3_continuation_advance (env : GenEnv) (tm : ToolManager) (f round_num : Nat)
    (s : GenState)
    (hm : env.toolManager = some tm)
    (hinv : round_num + (f + 1) = env.maxRounds)
    (hfr : (env.client s.callIdx).finish_reason = "tool_calls")
    (hguard : ¬ env.maxRounds ≤ round_num + 1)
    (hc : (env.client (s.callIdx + 1)).finish_reason = "tool_calls") :
    (genLoop env (f + 1) round_num s =
      ((genLoop env f (round_num + 1)
          { messages := s.messages ++ [ChatMessage.assistant (env.client s.callIdx).message]
              ++ toolResultMsgs tm (env.client s.callIdx)
              ++ [ChatMessage.assistant (env.client (s.callIdx + 1)).message],
            callIdx := s.callIdx + 2 }).1,
       (genLoop env f (round_num + 1)
          { messages := s.messages ++ [ChatMessage.assistant (env.client s.callIdx).message]
              ++ toolResultMsgs tm (env.client s.callIdx)
              ++ [ChatMessage.assistant (env.client (s.callIdx + 1)).message],
            callIdx := s.callIdx + 2 }).2.1,
       Event.roundCall { messages := s.messages, tools := toolsParamOf env.tools }
           (env.client s.callIdx)
         :: toolExecEvents tm (round_num + 1) (env.client s.callIdx)
         ++ [Event.continuationCall
              { messages := s.messages ++ [ChatMessage.assistant (env.client s.callIdx).message]
                  ++ toolResultMsgs tm (env.client s.callIdx)
                  ++ [ChatMessage.user continuationDecisionPrompt],
                tools := none }
              (env.client (s.callIdx + 1))]
         ++ (genLoop env f (round_num + 1)
              { messages := s.messages ++ [ChatMessage.assistant (env.client s.callIdx).message]
                  ++ toolResultMsgs tm (env.client s.callIdx)
                  ++ [ChatMessage.assistant (env.client (s.callIdx + 1)).message],
                callIdx := s.callIdx + 2 }).2.2))
  ∧ ∃ tail,
      (genLoop env f (round_num + 1)
        { messages := s.messages ++ [ChatMessage.assistant (env.client s.callIdx).message]
            ++ toolResultMsgs tm (env.client s.callIdx)
            ++ [ChatMessage.assistant (env.client (s.callIdx + 1)).message],
          callIdx := s.callIdx + 2 }).2.2 =
      Event.roundCall
          { messages := s.messages ++ [ChatMessage.assistant (env.client s.callIdx).message]
              ++ toolResultMsgs tm (env.client s.callIdx)
              ++ [ChatMessage.assistant (env.client (s.callIdx + 1)).message],
            tools := toolsParamOf env.tools }
          (env.client (s.callIdx + 2)) :: tail := by
  refine ⟨genLoop_cont_continue env tm f round_num s hm hfr hguard hc, ?_⟩
  obtain ⟨g, rfl⟩ : ∃ g, f = g + 1 := ⟨f - 1, by omega⟩
  exact genLoop_head_roundCall env g (round_num + 1) _

/-- Witness for the amended C3 at the concrete C3 environment: the answer of
the two-round loop is the answer of the advanced loop started from the
retained conversation. -/
theorem claim_C3_continuation_advance_witness :
    (genLoop envC3 2 0 { messages := [], callIdx := 0 }).1 =
      (genLoop envC3 1 1
        { messages := [ChatMessage.assistant (envC3.client 0).message]
            ++ toolResultMsgs wToolManager (envC3.client 0)
            ++ [ChatMessage.assistant (envC3.client 1).message],
          callIdx := 2 }).1 := by
  have h := claim_C3_continuation_advance envC3 wToolManager 1 0
    { messages := [], callIdx := 0 } rfl rfl rfl (by decide) rfl
  exact congrArg (fun t => t.1) h.1

/-- Environment for C4: round 1 requests a tool, the continuation check then
returns a direct answer. -/
def envC4 : GenEnv :=
  { client := fun i => if i == 0 then respToolsOf [tcOK] else respStopOf (some "enough"),
    tools := some [wTool], toolManager := some wToolManager, maxRounds := 2 }

/-- C4: the continuation check of `_should_continue_to_next_round` is built
from the base parameters and messages only — the request it sends carries NO
`tools` parameter, in every run and state; concretely, in a run whose
per-round model call advertised the registered tool schemas, the
continuation-check call that followed advertised none.  The spec's statement
that the continuation check is a model call with tools still advertised is
what the code was written to do (it branches on the decision's
`finish_reason == "tool_calls"`, impossible over the real API without
advertised tools), but the code omits the parameter. -/
theorem claim_C4_continuation_without_tools :
    (∀ (env : GenEnv) (s : GenState),
      (should_continue_to_next_round env s).2.2 =
        [Event.continuationCall
          { messages := s.messages ++ [ChatMessage.user continuationDecisionPrompt],
            tools := none }
          (env.client s.callIdx)])
  ∧ roundCallToolParams (generate_response envC4 "q" none).2.2 =
      [some (convert_tools_to_openai_format [wTool])]
  ∧ continuationToolParams (generate_response envC4 "q" none).2.2 = [none] := by
  refine ⟨?_, by decide, by decide⟩
  intro env s
  by_cases h : (env.client s.callIdx).finish_reason = "tool_calls" <;>
    simp [should_continue_to_next_round, h]

/-- The first-occurrence deduplication returns a sublist of its input (it
only drops elements, preserving order). -/
theorem dedupFirstAux_sublist : ∀ (l seen : List String),
    List.Sublist (dedupFirstAux seen l) l := by
  intro l
  induction l with
  | nil => intro seen; simp [dedupFirstAux]
  | cons a rest ih =>
    intro seen
    by_cases h : a ∈ seen
    · simp only [dedupFirstAux, if_pos h]
      exact (ih seen).cons a
    · simp only [dedupFirstAux, if_neg h]
      exact (ih (a :: seen)).cons₂ a

/-- Membership in the first-occurrence deduplication: exactly the input's
elements that were not already seen. -/
theorem mem_dedupFirstAux : ∀ (l seen : List String) (x : String),
    x ∈ dedupFirstAux seen l ↔ x ∈ l ∧ x ∉ seen := by
  intro l
  induction l with
  | nil => intro seen x; simp [dedupFirstAux]
  | cons a rest ih =>
    intro seen x
    by_cases h : a ∈ seen
    · rw [show dedupFirstAux seen (a :: rest) = dedupFirstAux seen rest from by
        simp [dedupFirstAux, h], ih]
      constructor
      · rintro ⟨hx, hns⟩
        exact ⟨List.mem_cons_of_mem a hx, hns⟩
      · rintro ⟨hx, hns⟩
        rcases List.mem_cons.mp hx with rfl | hx
        · exact absurd h hns
        · exact ⟨hx, hns⟩
    · rw [show dedupFirstAux seen (a :: rest) = a :: dedupFirstAux (a :: seen) rest from by
        simp [dedupFirstAux, h]]
      constructor
      · intro hx
        rcases List.mem_cons.mp hx with rfl | hx
        · exact ⟨List.mem_cons_self x rest, h⟩
        · obtain ⟨hr, hns⟩ := (ih (a :: seen) x).mp hx
          refine ⟨List.mem_cons_of_mem a hr, fun hs => hns (List.mem_cons_of_mem a hs)⟩
      · rintro ⟨hx, hns⟩
        rcases List.mem_cons.mp hx with rfl | hx
        · exact List.mem_cons_self x _
        · by_cases hxa : x = a
          · subst hxa
            exact List.mem_cons_self x _
          · refine List.mem_cons_of_mem a ((ih (a :: seen) x).mpr ⟨hx, ?_⟩)
            intro hmem
            rcases List.mem_cons.mp hmem with h1 | h1
            · exact hxa h1
            · exact hns h1

/-- The first-occurrence deduplication contains no duplicates. -/
theorem dedupFirstAux_nodup : ∀ (l seen : List String), (dedupFirstAux seen l).Nodup := by
  intro l
  induction l with
  | nil => intro seen; simp [dedupFirstAux]
  | cons a rest ih =>
    intro seen
    by_cases h : a ∈ seen
    · simp only [dedupFirstAux, if_pos h]
      exact ih seen
    · simp only [dedupFirstAux, if_neg h]
      refine List.nodup_cons.mpr ⟨?_, ih (a :: seen)⟩
      intro hmem
      obtain ⟨-, hns⟩ := (mem_dedupFirstAux rest (a :: seen) a).mp hmem
      exact hns (List.mem_cons_self a seen)

/-- The first-occurrence deduplication lists its elements in increasing
order of their first occurrence in the input. -/
theorem dedupFirstAux_pairwise : ∀ (l seen : List String),
    (dedupFirstAux seen l).Pairwise (fun x y => l.indexOf x < l.indexOf y) := by
  intro l
  induction l with
  | nil => intro seen; simp [dedupFirstAux]
  | cons a rest ih =>
    intro seen
    by_cases h : a ∈ seen
    · simp only [dedupFirstAux, if_pos h]
      refine List.Pairwise.imp_of_mem ?_ (ih seen)
      intro x y hx hy hlt
      obtain ⟨hxr, hxs⟩ := (mem_dedupFirstAux rest seen x).mp hx
      obtain ⟨hyr, hys⟩ := (mem_dedupFirstAux rest seen y).mp hy
      have hxa : a ≠ x := fun he => hxs (he ▸ h)
      have hya : a ≠ y := fun he => hys (he ▸ h)
      rw [List.indexOf_cons_ne rest hxa, List.indexOf_cons_ne rest hya]
      omega
    · simp only [dedupFirstAux, if_neg h]
      refine List.pairwise_cons.mpr ⟨?_, ?_⟩
      · intro y hy
        obtain ⟨hyr, hys⟩ := (mem_dedupFirstAux rest (a :: seen) y).mp hy
        have hya : a ≠ y := by
          intro he
          exact hys (by rw [← he]; exact List.mem_cons_self a seen)
        rw [List.indexOf_cons_self, List.indexOf_cons_ne rest hya]
        omega
      · refine List.Pairwise.imp_of_mem ?_ (ih (a :: seen))
        intro x y hx hy hlt
        obtain ⟨hxr, hxs⟩ := (mem_dedupFirstAux rest (a :: seen) x).mp hx
        obtain ⟨hyr, hys⟩ := (mem_dedupFirstAux rest (a :: seen) y).mp hy
        have hxa : a ≠ x := by
          intro he
          exact hxs (by rw [← he]; exact List.mem_cons_self a seen)
        have hya : a ≠ y := by
          intro he
          exact hys (by rw [← he]; exact List.mem_cons_self a seen)
        rw [List.indexOf_cons_ne rest hxa, List.indexOf_cons_ne rest hya]
        omega

/-- C9: for every non-empty errorless result set, the tracked source-label
list of the formatter is exactly the per-result label sequence with
duplicates removed keeping the first occurrence in result order: it is a
sublist of the labels (order preserved, only duplicates dropped), has no
duplicates, contains exactly the labels that occur, and is ordered by first
occurrence. -/
theorem claim_C9_source_label_dedup (r : SearchResults) (course_name : Option String)
    (lesson_number : Option Int) (herr : r.error = none)
    (hne : r.documents.isEmpty = false) :
    List.Sublist (format_results r course_name lesson_number).2 (resultLabels r)
  ∧ (format_results r course_name lesson_number).2.Nodup
  ∧ (∀ a, a ∈ (format_results r course_name lesson_number).2 ↔ a ∈ resultLabels r)
  ∧ (format_results r course_name lesson_number).2.Pairwise
      (fun a b => (resultLabels r).indexOf a < (resultLabels r).indexOf b) := by
  have hfmt : (format_results r course_name lesson_number).2 = dedupFirst (resultLabels r) := by
    simp [format_results, herr, hne]
  rw [hfmt, dedupFirst]
  refine ⟨dedupFirstAux_sublist _ _, dedupFirstAux_nodup _ _, ?_, dedupFirstAux_pairwise _ _⟩
  intro a
  rw [mem_dedupFirstAux]
  simp

/-- Witness for C9 at the spec's own example: labels `[A, A, B]` in result
order yield the tracked list `[A, B]`. -/
theorem claim_C9_source_label_dedup_witness :
    (format_results
        { documents := ["Content 1", "Content 2", "Content 3"],
          metadata := [{ course_title := "Course A", lesson_number := some 1 },
                       { course_title := "Course A", lesson_number := some 1 },
                       { course_title := "Course B", lesson_number := some 2 }],
          distances := [1, 2, 3], error := none } none none).2 =
      ["Course A - Lesson 1", "Course B - Lesson 2"]
  ∧ (format_results
        { documents := ["Content 1", "Content 2", "Content 3"],
          metadata := [{ course_title := "Course A", lesson_number := some 1 },
                       { course_title := "Course A", lesson_number := some 1 },
                       { course_title := "Course B", lesson_number := some 2 }],
          distances := [1, 2, 3], error := none } none none).2.Nodup := by
  have h := claim_C9_source_label_dedup
    { documents := ["Content 1", "Content 2", "Content 3"],
      metadata := [{ course_title := "Course A", lesson_number := some 1 },
                   { course_title := "Course A", lesson_number := some 1 },
                   { course_title := "Course B", lesson_number := some 2 }],
      distances := [1, 2, 3], error := none } none none rfl rfl
  exact ⟨by decide, h.2.1⟩

end RagChatbot
